import Mathlib

/-!
Shallow embedding of the CHIP-8 fetch/decode stage from `src/main.rs`.

Machine integers are modelled as `Nat` with the source's bit operations
written out explicitly; bytes stored in memory are `Fin 256` (they are `u8`
in the source), nibbles are plain `Nat` values below 16 produced by the
masking in `fetch_opcode`.  A Rust `panic!` (or a slice-bounds panic) is
modelled by the failing branch of an `Option`/`Except`.
-/

namespace Chip8

/-- `struct Address(u16)` — a decoded 12-bit address. -/
structure Address where
  val : Nat
deriving DecidableEq, Repr

/-- `impl From<&[u8; 3]> for Address`:
`Address((addr[0] as u16) << 8 | (addr[1] as u16) << 4 | addr[2] as u16)`. -/
def Address.fromNibbles (a0 a1 a2 : Nat) : Address :=
  ⟨(a0 <<< 8) ||| (a1 <<< 4) ||| a2⟩

/-- The error raised by `impl From<usize> for Address` via `panic!` when the
offset is above the addressable range. -/
inductive ConstructionRangeError where
  | OutOfRange : ConstructionRangeError
deriving DecidableEq, Repr

/-- `impl From<usize> for Address`:
`if value > 0xFFF { panic!(...) } Address(value as u16)`;
the panic is modelled as `Except.error OutOfRange`. -/
def Address.fromOffset (value : Nat) : Except ConstructionRangeError Address :=
  if value > 0xFFF then .error .OutOfRange else .ok ⟨value⟩

/-- `struct Const8(u8)` — a decoded 8-bit constant. -/
structure Const8 where
  val : Nat
deriving DecidableEq, Repr

/-- `impl From<&[u8; 2]> for Const8`: the source computes
`Const8(data[0 << 4] | data[1])`.  The shift sits in the INDEX, and
`0 << 4 = 0`, so the value produced is `data[0] | data[1]` (not
`data[0] << 4 | data[1]`).  The embedding keeps the index expression
verbatim over the 2-element slice. -/
def Const8.fromSlice (data : List Nat) : Const8 :=
  ⟨data.getD (0 <<< 4) 0 ||| data.getD 1 0⟩

/-- `struct Const4(u8)` — a decoded 4-bit constant. -/
structure Const4 where
  val : Nat
deriving DecidableEq, Repr

/-- `struct Var(u8)` — a decoded register index. -/
structure Var where
  val : Nat
deriving DecidableEq, Repr

/-- `enum OpCode` — one variant per instruction, payloads as in the source. -/
inductive OpCode where
  | CallRoutine : Address → OpCode
  | Clear : OpCode
  | Ret : OpCode
  | Jmp : Address → OpCode
  | CallSubroutine : Address → OpCode
  | SkipConstEq : Var → Const8 → OpCode
  | SkipConstNe : Var → Const8 → OpCode
  | SkipEq : Var → Var → OpCode
  | SetConst : Var → Const8 → OpCode
  | AddConst : Var → Const8 → OpCode
  | Set : Var → Var → OpCode
  | BitOR : Var → Var → OpCode
  | BitAND : Var → Var → OpCode
  | BitXOR : Var → Var → OpCode
  | AddEqReg : Var → Var → OpCode
  | SubEqReg : Var → Var → OpCode
  | BitRShift : Var → Var → OpCode
  | SubReg : Var → Var → OpCode
  | BitLShift : Var → Var → OpCode
  | SkipNe : Var → Var → OpCode
  | IToAddr : Address → OpCode
  | SetPc : Address → OpCode
  | Rand : Var → Const8 → OpCode
  | Draw : Var → Var → Const4 → OpCode
  | KeyEq : Var → OpCode
  | KeyNe : Var → OpCode
  | GetTimer : Var → OpCode
  | AwaitKey : Var → OpCode
  | SetDelayTimer : Var → OpCode
  | SetSoundTimer : Var → OpCode
  | IAdd : Var → OpCode
  | ISetSprite : Var → OpCode
  | StoreBCD : Var → OpCode
  | RegDump : Var → OpCode
  | RegLoad : Var → OpCode
deriving DecidableEq, Repr

/-- The `match parts { ... }` dispatch of `Memory::fetch_opcode`, as a
function of the four extracted nibbles `[n0, n1, n2, n3]`.  Each `if`
condition below is one arm's pattern, in source order, which reproduces
Rust's first-match semantics on the overlapping patterns; an omitted
conjunct is a wildcard/binder position of the arm.  The final `None` arm
(which also prints the quartet) is the trailing `none`. -/
def decode (n0 n1 n2 n3 : Nat) : Option OpCode :=
  if n0 = 0x0 ∧ n1 = 0x0 ∧ n2 = 0xE ∧ n3 = 0xE then some .Ret
  else if n0 = 0x0 ∧ n1 = 0x0 ∧ n2 = 0xE ∧ n3 = 0x0 then some .Clear
  else if n0 = 0x0 then some (.CallRoutine (Address.fromNibbles n1 n2 n3))
  else if n0 = 0x1 then some (.Jmp (Address.fromNibbles n1 n2 n3))
  else if n0 = 0x2 then some (.CallSubroutine (Address.fromNibbles n1 n2 n3))
  else if n0 = 0x3 then some (.SkipConstEq ⟨n1⟩ (Const8.fromSlice [n2, n3]))
  else if n0 = 0x4 then some (.SkipConstNe ⟨n1⟩ (Const8.fromSlice [n2, n3]))
  else if n0 = 0x5 ∧ n3 = 0x0 then some (.SkipEq ⟨n1⟩ ⟨n2⟩)
  else if n0 = 0x6 then some (.SetConst ⟨n1⟩ (Const8.fromSlice [n2, n3]))
  else if n0 = 0x7 then some (.AddConst ⟨n1⟩ (Const8.fromSlice [n2, n3]))
  else if n0 = 0x8 ∧ n3 = 0x0 then some (.Set ⟨n1⟩ ⟨n2⟩)
  else if n0 = 0x8 ∧ n3 = 0x1 then some (.BitOR ⟨n1⟩ ⟨n2⟩)
  else if n0 = 0x8 ∧ n3 = 0x2 then some (.BitAND ⟨n1⟩ ⟨n2⟩)
  else if n0 = 0x8 ∧ n3 = 0x3 then some (.BitXOR ⟨n1⟩ ⟨n2⟩)
  else if n0 = 0x8 ∧ n3 = 0x4 then some (.AddEqReg ⟨n1⟩ ⟨n2⟩)
  else if n0 = 0x8 ∧ n3 = 0x5 then some (.SubEqReg ⟨n1⟩ ⟨n2⟩)
  else if n0 = 0x8 ∧ n3 = 0x6 then some (.BitRShift ⟨n1⟩ ⟨n2⟩)
  else if n0 = 0x8 ∧ n3 = 0x7 then some (.SubReg ⟨n1⟩ ⟨n2⟩)
  else if n0 = 0x8 ∧ n3 = 0xE then some (.BitLShift ⟨n1⟩ ⟨n2⟩)
  else if n0 = 0x9 ∧ n3 = 0x0 then some (.SkipNe ⟨n1⟩ ⟨n2⟩)
  else if n0 = 0xA then some (.IToAddr (Address.fromNibbles n1 n2 n3))
  else if n0 = 0xB then some (.SetPc (Address.fromNibbles n1 n2 n3))
  else if n0 = 0xC then some (.Rand ⟨n1⟩ (Const8.fromSlice [n2, n3]))
  else if n0 = 0xD then some (.Draw ⟨n1⟩ ⟨n2⟩ ⟨n3⟩)
  else if n0 = 0xE ∧ n2 = 0x9 ∧ n3 = 0xE then some (.KeyEq ⟨n1⟩)
  else if n0 = 0xE ∧ n2 = 0xA ∧ n3 = 0x1 then some (.KeyNe ⟨n1⟩)
  else if n0 = 0xF ∧ n2 = 0x0 ∧ n3 = 0x7 then some (.GetTimer ⟨n1⟩)
  else if n0 = 0xF ∧ n2 = 0x1 ∧ n3 = 0xA then some (.AwaitKey ⟨n1⟩)
  else if n0 = 0xF ∧ n2 = 0x1 ∧ n3 = 0x5 then some (.SetDelayTimer ⟨n1⟩)
  else if n0 = 0xF ∧ n2 = 0x1 ∧ n3 = 0x8 then some (.SetSoundTimer ⟨n1⟩)
  else if n0 = 0xF ∧ n2 = 0x1 ∧ n3 = 0xE then some (.IAdd ⟨n1⟩)
  else if n0 = 0xF ∧ n2 = 0x2 ∧ n3 = 0x9 then some (.ISetSprite ⟨n1⟩)
  else if n0 = 0xF ∧ n2 = 0x3 ∧ n3 = 0x3 then some (.StoreBCD ⟨n1⟩)
  else if n0 = 0xF ∧ n2 = 0x5 ∧ n3 = 0x5 then some (.RegDump ⟨n1⟩)
  else if n0 = 0xF ∧ n2 = 0x6 ∧ n3 = 0x5 then some (.RegLoad ⟨n1⟩)
  else none

/-- The nibble extraction
`[(opc[0] & 0xF0) >> 4, opc[0] & 0x0F, (opc[1] & 0xF0) >> 4, opc[1] & 0x0F]`
of `Memory::fetch_opcode` followed by the dispatch, as a function of the two
bytes of the opcode window. -/
def decodeBytes (b0 b1 : Nat) : Option OpCode :=
  decode ((b0 &&& 0xF0) >>> 4) (b0 &&& 0x0F) ((b1 &&& 0xF0) >>> 4) (b1 &&& 0x0F)

/-- `struct Memory { data: [u8; 4096] }`. -/
structure Memory where
  data : Fin 4096 → Fin 256

/-- `Memory::fetch_opcode`: slices `&self.data[idx..idx + 2]` and decodes it.
The slice operation panics when `idx + 2 > 4096` (no bound is checked by the
function itself); the panic is modelled by the outer `none`. -/
def Memory.fetchOpcode (m : Memory) (address : Address) : Option (Option OpCode) :=
  let idx := address.val
  if h : idx + 2 ≤ 4096 then
    some (decodeBytes (m.data ⟨idx, by omega⟩).val (m.data ⟨idx + 1, by omega⟩).val)
  else
    none

/-- The all-zero memory image (`Memory::new`). -/
def memZero : Memory := ⟨fun _ => 0⟩

/-- A second memory image that agrees with `memZero` on bytes 0 and 1 only. -/
def memTail : Memory := ⟨fun i => if i.val ≤ 1 then 0 else 1⟩

/-- Projection of a literal address. -/
@[simp] theorem Address.val_mk (n : Nat) : Address.val ⟨n⟩ = n := rfl

/-- C1: the claim says reassembling a byte from its two nibbles via the
`Const8` constructor is the identity, the constructor computing
`(n2 <<< 4) ||| n3`.  It is not: the source's shift lands in the slice index
(`data[0 << 4] = data[0]`), so the constructor computes `n2 ||| n3`.  At
`b = 0x10` the nibbles are `n2 = 0x1`, `n3 = 0x0` and the constructor
returns `0x1`, not `0x10`. -/
theorem const8_roundtrip_fails_at_0x10 :
    ((0x10 &&& 0xF0) >>> 4 : Nat) = 0x1 ∧ (0x10 &&& 0x0F : Nat) = 0x0 ∧
    Const8.fromSlice [0x1, 0x0] = ⟨0x1⟩ ∧
    ((0x1 <<< 4) ||| 0x0 : Nat) = 0x10 ∧ (0x1 : Nat) ≠ 0x10 := by
  refine ⟨rfl, rfl, rfl, rfl, by decide⟩

/-- C2: the decoder is total and deterministic over all 65536 two-byte
words: each input yields exactly one instruction or exactly one failure,
never both and never neither, and no word decodes to two different
variants. -/
theorem decode_total_deterministic (b0 b1 : Fin 256) :
    (∃ i, decodeBytes b0.val b1.val = some i ∧
        ∀ j, decodeBytes b0.val b1.val = some j → j = i ∧ decodeBytes b0.val b1.val ≠ none)
    ∨ (decodeBytes b0.val b1.val = none ∧ ∀ i, decodeBytes b0.val b1.val ≠ some i) := by
  cases h : decodeBytes b0.val b1.val with
  | none =>
      exact Or.inr ⟨rfl, fun i hi => Option.noConfusion hi⟩
  | some i =>
      exact Or.inl ⟨i, rfl, fun j hj =>
        ⟨(Option.some.inj hj).symm, fun hn => Option.noConfusion hn⟩⟩

/-- C2 witness at a concrete word. -/
theorem decode_total_deterministic_at_6AFF :
    (∃ i, decodeBytes (0x6A : Fin 256).val (0xFF : Fin 256).val = some i ∧
        ∀ j, decodeBytes (0x6A : Fin 256).val (0xFF : Fin 256).val = some j →
          j = i ∧ decodeBytes (0x6A : Fin 256).val (0xFF : Fin 256).val ≠ none)
    ∨ (decodeBytes (0x6A : Fin 256).val (0xFF : Fin 256).val = none ∧
        ∀ i, decodeBytes (0x6A : Fin 256).val (0xFF : Fin 256).val ≠ some i) :=
  decode_total_deterministic 0x6A 0xFF

/-- C3: the claim says bytes `[0x60, 0xFF]` decode to
`SetConst(Var 0, Const8 0xFF)`.  The code instead produces `Const8 0x0F`,
because the `Const8` constructor ors the two nibbles `0xF ||| 0xF` instead
of shifting the high one. -/
theorem decode_60FF_gives_const8_0F :
    decodeBytes 0x60 0xFF = some (.SetConst ⟨0x0⟩ ⟨0x0F⟩) ∧
    decodeBytes 0x60 0xFF ≠ some (.SetConst ⟨0x0⟩ ⟨0xFF⟩) := by
  refine ⟨rfl, by decide⟩

/-- C4: the claim says trailing byte `0x0A` of an `0xF`-group word yields
the await-key variant.  In the code the await-key arm is
`[0xF, x, 0x1, 0xA]`, i.e. trailing byte `0x1A`: the word `0xF00A` decodes
to a failure and `0xF01A` decodes to `AwaitKey`. -/
theorem decode_F00A_fails_F01A_awaits :
    decodeBytes 0xF0 0x0A = none ∧
    decodeBytes 0xF0 0x1A = some (.AwaitKey ⟨0x0⟩) := by
  refine ⟨rfl, rfl⟩

/-- C5: within the `0x0` leading-nibble group the fixed patterns win:
`[0,0,E,E]` decodes to `Ret`, `[0,0,E,0]` to `Clear`, and every other
quartet with `n0 = 0` to `CallRoutine` carrying the address assembled from
`n1 n2 n3`. -/
theorem decode_group0_priority (n1 n2 n3 : Nat) :
    decode 0x0 n1 n2 n3 =
      if n1 = 0x0 ∧ n2 = 0xE ∧ n3 = 0xE then some .Ret
      else if n1 = 0x0 ∧ n2 = 0xE ∧ n3 = 0x0 then some .Clear
      else some (.CallRoutine (Address.fromNibbles n1 n2 n3)) := by
  simp [decode]

/-- C5 witness at a concrete quartet hitting the fallback arm. -/
theorem decode_group0_priority_at_0234 :
    decode 0x0 0x2 0x3 0x4 = some (.CallRoutine (Address.fromNibbles 0x2 0x3 0x4)) := by
  simpa using decode_group0_priority 0x2 0x3 0x4

/-- C6: within the `0x8` leading-nibble group, trailing nibbles
`0x0`–`0x7` and `0xE` select the nine two-register variants carrying
`Var n1` and `Var n2`, and every other trailing nibble (in particular
`0x8`–`0xD` and `0xF`) is a decode failure, never a default variant. -/
theorem decode_group8_exact (n1 n2 n3 : Nat) :
    decode 0x8 n1 n2 n3 =
      if n3 = 0x0 then some (.Set ⟨n1⟩ ⟨n2⟩)
      else if n3 = 0x1 then some (.BitOR ⟨n1⟩ ⟨n2⟩)
      else if n3 = 0x2 then some (.BitAND ⟨n1⟩ ⟨n2⟩)
      else if n3 = 0x3 then some (.BitXOR ⟨n1⟩ ⟨n2⟩)
      else if n3 = 0x4 then some (.AddEqReg ⟨n1⟩ ⟨n2⟩)
      else if n3 = 0x5 then some (.SubEqReg ⟨n1⟩ ⟨n2⟩)
      else if n3 = 0x6 then some (.BitRShift ⟨n1⟩ ⟨n2⟩)
      else if n3 = 0x7 then some (.SubReg ⟨n1⟩ ⟨n2⟩)
      else if n3 = 0xE then some (.BitLShift ⟨n1⟩ ⟨n2⟩)
      else none := by
  simp [decode]

/-- C6 witness at two concrete quartets: a recognized trailing nibble and a
rejected one. -/
theorem decode_group8_exact_at_8x2 :
    decode 0x8 0x1 0x2 0x4 = some (.AddEqReg ⟨0x1⟩ ⟨0x2⟩) ∧
    decode 0x8 0x1 0x2 0x9 = none := by
  constructor
  · simpa using decode_group8_exact 0x1 0x2 0x4
  · simpa using decode_group8_exact 0x1 0x2 0x9

/-- C7 counterexample: the decoder's failure value is `None`, which carries
nothing.  Two words with different nibble quartets (`FFFF` and `E000`)
produce the same failure value, so no function can recover the offending
quartet from the returned failure. -/
theorem decode_failure_carries_no_nibbles :
    decodeBytes 0xFF 0xFF = none ∧ decodeBytes 0xE0 0x00 = none ∧
    ¬ ∃ recover : Option OpCode → Nat × Nat × Nat × Nat,
        recover (decodeBytes 0xFF 0xFF) = (0xF, 0xF, 0xF, 0xF) ∧
        recover (decodeBytes 0xE0 0x00) = (0xE, 0x0, 0x0, 0x0) := by
  refine ⟨rfl, rfl, ?_⟩
  rintro ⟨recover, h1, h2⟩
  have hf : decodeBytes 0xFF 0xFF = decodeBytes 0xE0 0x00 := rfl
  rw [hf, h2] at h1
  exact absurd (congrArg Prod.fst h1) (by decide)

/-- C7 amended: on an unrecognized nibble quartet the decoder returns the
failure value `none` (logging the quartet only to stdout); the failure
value is identical for every unrecognized word and carries no information
about the offending nibbles. -/
theorem decode_failure_uninformative (b0 b1 c0 c1 : Nat)
    (h1 : decodeBytes b0 b1 = none) (h2 : decodeBytes c0 c1 = none) :
    decodeBytes b0 b1 = decodeBytes c0 c1 := by
  rw [h1, h2]

/-- C7 amended witness: the failure values of words `FFFF` and `E000`
coincide. -/
theorem decode_failure_uninformative_at_FFFF_E000 :
    decodeBytes 0xFF 0xFF = decodeBytes 0xE0 0x00 :=
  decode_failure_uninformative 0xFF 0xFF 0xE0 0x00 rfl rfl

/-- C8: the offset-based `Address` constructor succeeds and returns the
value unchanged for every offset up to `0xFFF = 4095`, and fails with the
out-of-range condition (the source's `panic!`) exactly when the offset
exceeds 4095. -/
theorem fromOffset_range (n : Nat) :
    (n ≤ 4095 → Address.fromOffset n = .ok ⟨n⟩) ∧
    (4095 < n → Address.fromOffset n = .error .OutOfRange) := by
  constructor <;> intro h <;> simp [Address.fromOffset] <;> omega

/-- C8 witness: a concrete in-range offset and a concrete overflowing
offset. -/
theorem fromOffset_range_at_3_4096 :
    Address.fromOffset 0x3 = .ok ⟨0x3⟩ ∧
    Address.fromOffset 0x1000 = .error .OutOfRange :=
  ⟨(fromOffset_range 0x3).1 (by decide), (fromOffset_range 0x1000).2 (by decide)⟩

/-- C9: the fetch/decode result depends only on the two bytes of the opcode
window: two memory images that agree at indices `addr` and `addr + 1` give
equal results at `addr`, whatever the rest of memory holds. -/
theorem fetch_depends_only_on_window (m1 m2 : Memory) (a : Address)
    (h : ∀ i : Fin 4096, (i.val = a.val ∨ i.val = a.val + 1) → m1.data i = m2.data i) :
    m1.fetchOpcode a = m2.fetchOpcode a := by
  unfold Memory.fetchOpcode
  by_cases hle : a.val + 2 ≤ 4096
  · rw [dif_pos hle, dif_pos hle,
      h ⟨a.val, by omega⟩ (Or.inl rfl), h ⟨a.val + 1, by omega⟩ (Or.inr rfl)]
  · rw [dif_neg hle, dif_neg hle]

/-- C9 witness: `memZero` and `memTail` differ from index 2 on but agree on
the window at address 0, so fetching at 0 gives equal results. -/
theorem fetch_depends_only_on_window_at_0 :
    memZero.fetchOpcode ⟨0x0⟩ = memTail.fetchOpcode ⟨0x0⟩ :=
  fetch_depends_only_on_window memZero memTail ⟨0x0⟩ (by
    intro i hi
    have hv : i.val ≤ 1 := by
      rcases hi with h0 | h0 <;> simp_all
    simp [memZero, memTail, hv])

/-- C10: for every address up to 4094 the two-byte slice
`data[idx..idx + 2]` is in bounds and fetch returns (without panicking);
at the maximal valid address 4095 the slice end exceeds the 4096-byte
memory and the panic branch is taken — the decoder checks no address bound
itself. -/
theorem fetch_slice_bounds :
    (∀ (m : Memory) (a : Nat), a ≤ 4094 → ∃ r, m.fetchOpcode ⟨a⟩ = some r) ∧
    (∀ m : Memory, m.fetchOpcode ⟨4095⟩ = none) := by
  constructor
  · intro m a ha
    unfold Memory.fetchOpcode
    simp only [Address.val_mk]
    rw [dif_pos (by omega)]
    exact ⟨_, rfl⟩
  · intro m
    unfold Memory.fetchOpcode
    simp only [Address.val_mk]
    rw [dif_neg (by omega)]

/-- C10 witness: fetch succeeds on the zero memory at address 0 and panics
at address 4095. -/
theorem fetch_slice_bounds_at_0_4095 :
    (∃ r, memZero.fetchOpcode ⟨0x0⟩ = some r) ∧ memZero.fetchOpcode ⟨0xFFF⟩ = none :=
  ⟨fetch_slice_bounds.1 memZero 0x0 (by decide), fetch_slice_bounds.2 memZero⟩

end Chip8
